import Mathlib

/-!
Verification development for the ARIA web application (frontend).

The frontend JavaScript is shallowly embedded in Lean: JS strings are
modelled as `List Char`, JS numbers as exact rationals `ℚ`, nullable
values as `Option`, and the relevant React component logic as pure
state-transition functions.  Each definition is translated from the
corresponding source function; theorems settle the specification
claims about that code.
-/

namespace ARIA

/-! ## JavaScript string primitives (strings as lists of characters) -/

/-- The whitespace characters stripped by `String.prototype.trim`
(restricted to the ASCII whitespace actually produced by the app). -/
def jsWhitespace (c : Char) : Bool :=
  c == ' ' || c == '\t' || c == '\n' || c == '\r'

/-- Strip leading whitespace (left half of `trim`). -/
def ltrim (s : List Char) : List Char :=
  s.dropWhile jsWhitespace

/-- Strip trailing whitespace (right half of `trim`). -/
def rtrim (s : List Char) : List Char :=
  s.foldr (fun c acc => if acc = [] ∧ jsWhitespace c then [] else c :: acc) []

/-- Model of `String.prototype.trim`. -/
def trim (s : List Char) : List Char :=
  rtrim (ltrim s)

/-- Model of `String.prototype.toLowerCase` (ASCII case folding). -/
def toLowerCase (s : List Char) : List Char :=
  s.map Char.toLower

/-- `listStartsWith pat s` holds when `pat` is a prefix of `s`. -/
def listStartsWith : List Char → List Char → Bool
  | [], _ => true
  | _ :: _, [] => false
  | p :: ps, c :: cs => p == c && listStartsWith ps cs

/-- Model of `String.prototype.replace(pat, '')` with a string pattern:
remove the first occurrence of `pat` (an empty pattern matches at
position 0, leaving the string unchanged). -/
def replaceFirst : List Char → List Char → List Char
  | [], _ => []
  | c :: cs, pat =>
    if listStartsWith pat (c :: cs) then (c :: cs).drop pat.length
    else c :: replaceFirst cs pat

/-- Model of `String.prototype.includes`: `sub` occurs in `s`. -/
def containsSub : List Char → List Char → Bool
  | [], sub => listStartsWith sub []
  | c :: cs, sub => listStartsWith sub (c :: cs) || containsSub cs sub

/-! ## Shared API client (frontend/src/services/api.js)

The axios response interceptor: on a 401 response it clears the stored
credentials from `localStorage`, redirects to `/login`, and re-rejects;
every error is propagated to the caller. -/

/-- Browser-visible state touched by the interceptor: the `localStorage`
key/value pairs and `window.location.href`. -/
structure Browser where
  storageItems : List (String × String)
  href : String
deriving DecidableEq

/-- `localStorage.getItem`. -/
def getItem (b : Browser) (key : String) : Option String :=
  (b.storageItems.find? (fun p => p.1 == key)).map Prod.snd

/-- `localStorage.removeItem`. -/
def removeItem (b : Browser) (key : String) : Browser :=
  { b with storageItems := b.storageItems.filter (fun p => p.1 != key) }

/-- An axios error; `status = none` models a request that got no response. -/
structure ApiError where
  status : Option ℕ
deriving DecidableEq

/-- The response-error interceptor of `api.js`: on status 401 remove
`aria_token` and `aria_user` and navigate to `/login`; always return the
rejected promise. -/
def onResponseError (b : Browser) (e : ApiError) : Browser × Except ApiError Unit :=
  if e.status = some 401 then
    let b1 := removeItem b "aria_token"
    let b2 := removeItem b1 "aria_user"
    ({ b2 with href := "/login" }, Except.error e)
  else (b, Except.error e)

/-! ## SignToSpeech component (sign language → speech view) -/

/-- `MAX_RECORDING_DURATION = 5` seconds. -/
def MAX_RECORDING_DURATION : ℚ := 5

/-- A stored API key as returned by the backend. -/
structure APIKey where
  provider : String
  is_active : Bool

/-- `apiKeys.some(k => k.provider === provider && k.is_active)`. -/
def hasAPIKey (apiKeys : List APIKey) (provider : String) : Bool :=
  apiKeys.any (fun k => k.provider == provider && k.is_active)

/-- A sign-to-speech backend response; both fields are nullable. -/
structure SignResult where
  translation : Option (List Char)
  audio_base64 : Option (List Char)

/-- The emergency keyword searched for in the translation. -/
def emergencyKeyword : List Char := "this is an emergency".toList

/-- `result.translation && result.translation.toLowerCase().includes('this is an emergency')`
(a missing or empty translation is falsy). -/
def emergencyDetected (translation : Option (List Char)) : Bool :=
  match translation with
  | none => false
  | some t => !t.isEmpty && containsSub (toLowerCase t) emergencyKeyword

/-- Effect of one `sendToAPI` result on the `isEmergency` state: the blink
is started only when the keyword is detected; otherwise the state is left
untouched. -/
def emergencyAfter (isEmergency : Bool) (r : SignResult) : Bool :=
  if emergencyDetected r.translation then true else isEmergency

/-- Numeric value of one base64 alphabet character (`atob`). -/
def b64Val (c : Char) : ℕ :=
  if 'A' ≤ c ∧ c ≤ 'Z' then c.toNat - 'A'.toNat
  else if 'a' ≤ c ∧ c ≤ 'z' then c.toNat - 'a'.toNat + 26
  else if '0' ≤ c ∧ c ≤ '9' then c.toNat - '0'.toNat + 52
  else if c = '+' then 62
  else if c = '/' then 63
  else 0

/-- `Uint8Array.from(atob(s), c => c.charCodeAt(0))`: base64 decoding to
a byte list, honouring `=` padding. -/
def atobBytes : List Char → List ℕ
  | a :: b :: '=' :: '=' :: [] =>
    [b64Val a * 4 + b64Val b / 16]
  | a :: b :: c :: '=' :: [] =>
    [b64Val a * 4 + b64Val b / 16, b64Val b % 16 * 16 + b64Val c / 4]
  | a :: b :: c :: d :: rest =>
    (b64Val a * 4 + b64Val b / 16) :: (b64Val b % 16 * 16 + b64Val c / 4) ::
      (b64Val c % 4 * 64 + b64Val d) :: atobBytes rest
  | _ => []

/-- The audible outcome produced for one translation result. -/
inductive AudioOut where
  | play (dataBytes : List ℕ) (mime : String)
  | speak (text : List Char)
  | silent
deriving DecidableEq

/-- The `else if (result.translation)` branch: speak the translation with
`SpeechSynthesisUtterance`. -/
def audioFallback (r : SignResult) : AudioOut :=
  match r.translation with
  | some t => if !t.isEmpty then AudioOut.speak t else AudioOut.silent
  | none => AudioOut.silent

/-- Audio handling of `sendToAPI`: a truthy `audio_base64` is decoded into
an `audio/mpeg` blob and played; otherwise a truthy translation is spoken
through the browser speech-synthesis API. -/
def audioAction (r : SignResult) : AudioOut :=
  match r.audio_base64 with
  | some s =>
    if !s.isEmpty then AudioOut.play (atobBytes s) "audio/mpeg"
    else audioFallback r
  | none => audioFallback r

/-- JS truthiness of a nullable string: `null`/`undefined` and the empty
string are falsy. -/
def truthyStr : Option (List Char) → Bool
  | none => false
  | some s => !s.isEmpty

/-- The component state touched by the synchronous prefix of `sendToAPI`. -/
structure SignViewState where
  translation : List Char
  loading : Bool
  error : List Char
  audioUrl : List Char
deriving DecidableEq

/-- Which backend call `sendToAPI` selects for the media type. -/
inductive SignApiCall where
  | videoCall (provider : String)
  | imageCall (provider : String)
  | invalidMedia
deriving DecidableEq

/-- Error message set when no active key matches the selected provider. -/
def noKeyMessage (provider : String) : List Char :=
  ("Please configure your " ++ provider ++ " API key in Settings.").toList

/-- Error message set when video input is used with the OpenAI provider. -/
def videoRequiresGeminiMessage : List Char :=
  "Video input requires Gemini provider. Please select Gemini Pro or Gemini Flash.".toList

/-- Synchronous prefix of `SignToSpeech.sendToAPI`: the two guards, the
state resets, and the selection of the backend call. -/
def sendToAPIGuard (apiKeys : List APIKey) (provider mediaType : String)
    (st : SignViewState) : SignViewState × Option SignApiCall :=
  if !(hasAPIKey apiKeys provider) then
    ({ st with error := noKeyMessage provider }, none)
  else if mediaType == "video" && provider == "openai" then
    ({ st with error := videoRequiresGeminiMessage }, none)
  else
    let st1 := { st with loading := true, error := [], translation := [], audioUrl := [] }
    if mediaType == "video" then (st1, some (SignApiCall.videoCall provider))
    else if mediaType == "image" then (st1, some (SignApiCall.imageCall provider))
    else (st1, some SignApiCall.invalidMedia)

/-- One 100 ms tick of the recording timer: add `0.1` to the previous
time; when the result reaches `MAX_RECORDING_DURATION`, stop the recorder
and clamp the displayed value to the maximum.  The second component is
true when `stopRecording()` was invoked by this tick. -/
def timerTick (prev : ℚ) : ℚ × Bool :=
  let newTime := prev + 1 / 10
  if newTime ≥ MAX_RECORDING_DURATION then (MAX_RECORDING_DURATION, true)
  else (newTime, false)

/-- Displayed recording time and stop flag after `n` timer ticks; once the
recorder is stopped the interval has been cleared, so the state freezes. -/
def timerState : ℕ → ℚ × Bool
  | 0 => (0, false)
  | n + 1 =>
    let s := timerState n
    if s.2 then s else timerTick s.1

/-! ## History component (frontend/src/components/Dashboard/History.jsx) -/

/-- One rendered gloss badge. -/
structure Badge where
  text : String
deriving DecidableEq

/-- Rendering of the gloss section of a history entry: a null or absent
`output_gloss` is falsy and renders nothing, otherwise each list element
becomes one badge, in list order. -/
def renderGlossBadges (output_gloss : Option (List String)) : Option (List Badge) :=
  match output_gloss with
  | none => none
  | some words => some (words.map Badge.mk)

/-! ## Transcription services (frontend/src/services/transcription.js) -/

/-- A POST request issued through the shared API client, reduced to the
fields relevant here. -/
structure PostRequest where
  endpoint : String
  textPayload : List Char
  provider : String
  previous_context : Option (List Char)
deriving DecidableEq

/-- `textToGloss`: POST `/api/text-to-gloss` with `{text, provider}`. -/
def textToGlossRequest (text : List Char) (provider : String) : PostRequest :=
  { endpoint := "/api/text-to-gloss", textPayload := text,
    provider := provider, previous_context := none }

/-- `transcriptionChunkSummary`: POST `/api/transcription-chunk-summary`
with `{transcription, provider, previous_context}`. -/
def transcriptionChunkSummaryRequest (transcription : List Char) (provider : String)
    (previousContext : Option (List Char)) : PostRequest :=
  { endpoint := "/api/transcription-chunk-summary", textPayload := transcription,
    provider := provider, previous_context := previousContext }

/-! ## SpeechToSign component (speech → sign view) -/

/-- The refs of the `SpeechToSign` component that drive chunking. -/
structure SpeechState where
  finalTranscript : List Char
  lastChunkSent : List Char
  chunkCounter : ℕ
  previousContext : List Char
  hasProviderKey : Bool
  provider : String

/-- `sendTranscriptionChunk`: no request is issued without an active
provider key or for a whitespace-only text; otherwise the chunk is posted
to the transcription-chunk-summary endpoint with the previous summary as
context (`previousContextRef.current || null`). -/
def sendTranscriptionChunk (st : SpeechState) (transcriptionText : List Char) :
    Option PostRequest :=
  if !st.hasProviderKey || (trim transcriptionText).isEmpty then none
  else some (transcriptionChunkSummaryRequest transcriptionText st.provider
    (if st.previousContext.isEmpty then none else some st.previousContext))

/-- The chunk interval period in milliseconds (`setInterval(..., 5000)`). -/
def chunkIntervalMs : ℕ := 5000

/-- One firing of the 5-second chunk interval: send the buffered finalized
transcript when it is non-empty, differs from the previously sent chunk,
and contributes new text after removing the previous chunk. -/
def chunkTick (st : SpeechState) : SpeechState × Option PostRequest :=
  let currentTranscription := trim st.finalTranscript
  if currentTranscription ≠ [] ∧ currentTranscription ≠ st.lastChunkSent then
    let newText := trim (replaceFirst currentTranscription st.lastChunkSent)
    if newText ≠ [] then
      ({ st with chunkCounter := st.chunkCounter + 1,
                 lastChunkSent := currentTranscription },
        sendTranscriptionChunk st currentTranscription)
    else (st, none)
  else (st, none)

/-- The final flush in `stopRecording`: any finalized transcription that
was not yet sent is sent as one last chunk. -/
def stopRecordingFlush (st : SpeechState) : SpeechState × Option PostRequest :=
  let finalTranscription := trim st.finalTranscript
  if finalTranscription ≠ [] ∧ finalTranscription ≠ st.lastChunkSent then
    ({ st with chunkCounter := st.chunkCounter + 1 },
      sendTranscriptionChunk st finalTranscription)
  else (st, none)

/-- Buffering of one finalized recognition result
(`finalTranscriptRef.current += transcript + ' '`). -/
def onResultFinal (st : SpeechState) (transcript : List Char) : SpeechState :=
  { st with finalTranscript := st.finalTranscript ++ transcript ++ [' '] }

/-- Response of the transcription-chunk-summary endpoint. -/
structure ChunkSummaryResult where
  summary : Option (List Char)

/-- What the `SpeechToSign` view displays. -/
structure SpeechDisplay where
  transcriptionShown : List Char
  summaryShown : List Char
deriving DecidableEq

/-- Handling of one chunk response: a truthy summary becomes the new
context and the displayed output of the view. -/
def onChunkResult (st : SpeechState) (disp : SpeechDisplay) (r : ChunkSummaryResult) :
    SpeechState × SpeechDisplay :=
  match r.summary with
  | some s =>
    if s ≠ [] then
      ({ st with previousContext := s }, { disp with summaryShown := s })
    else (st, disp)
  | none => (st, disp)

/-! ## Video compression (frontend/src/utils/videoCompression.js) -/

/-- `frameInterval = 42` milliseconds per frame. -/
def frameIntervalMs : ℕ := 42

/-- Canvas target width (`targetWidth = 1280`). -/
def targetWidth : ℕ := 1280

/-- Canvas target height (`targetHeight = 720`). -/
def targetHeight : ℕ := 720

/-- Frame rate passed to `canvas.captureStream(24)`. -/
def captureFrameRate : ℕ := 24

/-- `videoBitsPerSecond` cap passed to the `MediaRecorder`. -/
def compressVideoBitsPerSecond : ℕ := 250000

/-- The seek times (in ms) at which `drawFrame` draws the source video to
the canvas: starting from `current`, step by 42 ms while below the
duration. -/
def drawFrameTimes (current : ℕ) (durationMs : ℚ) : List ℕ :=
  if h : (current : ℚ) < durationMs then
    current :: drawFrameTimes (current + frameIntervalMs) durationMs
  else []
termination_by ⌈durationMs⌉₊ - current
decreasing_by
  have hc : current < ⌈durationMs⌉₊ := Nat.lt_ceil.mpr h
  simp only [frameIntervalMs]
  omega

/-- `const duration = maxDuration ? Math.min(video.duration, maxDuration) : video.duration`
(a zero `maxDuration` is falsy, like `null`). -/
def effectiveDuration (videoDuration : ℚ) (maxDuration : Option ℚ) : ℚ :=
  match maxDuration with
  | some m => if m ≠ 0 then min videoDuration m else videoDuration
  | none => videoDuration

/-- All seek times processed by one `compressVideo` run, in draw order. -/
def compressFrames (videoDuration : ℚ) (maxDuration : Option ℚ) : List ℕ :=
  drawFrameTimes 0 (effectiveDuration videoDuration maxDuration * 1000)

/-- A JS `Blob`, reduced to its bytes and MIME type. -/
structure JsBlob where
  dataBytes : List ℕ
  mimeType : String
deriving DecidableEq

/-- `ondataavailable`: only chunks with `size > 0` are kept, in arrival
order. -/
def recordedChunks (dataEvents : List (List ℕ)) : List (List ℕ) :=
  dataEvents.filter (fun d => d.length > 0)

/-- `onstop`: resolve with `new Blob(chunks, {type: 'video/webm'})`. -/
def compressOutputBlob (dataEvents : List (List ℕ)) : JsBlob :=
  { dataBytes := (recordedChunks dataEvents).flatten, mimeType := "video/webm" }

/-! ### Lemmas about `trim` -/

theorem rtrim_isPre (s : List Char) : rtrim s <+: s := by
  induction s with
  | nil => simp [rtrim]
  | cons c cs ih =>
    simp only [rtrim, List.foldr] at *
    split
    · exact ⟨c :: cs, rfl⟩
    · exact List.prefix_cons_inj c |>.mpr ih

theorem dropWhile_len_le (p : Char → Bool) (l : List Char) :
    (l.dropWhile p).length ≤ l.length := by
  induction l with
  | nil => simp
  | cons a t ih =>
    rw [List.dropWhile_cons]
    split
    · exact Nat.le_trans ih (Nat.le_succ _)
    · exact Nat.le_refl _

theorem dropWhile_of_isPre {p : Char → Bool} {s q : List Char}
    (hs : s.dropWhile p = s) (hq : q <+: s) : q.dropWhile p = q := by
  cases q with
  | nil => rfl
  | cons a t =>
    obtain ⟨r, hr⟩ := hq
    subst hr
    rw [List.cons_append, List.dropWhile_cons] at hs
    rw [List.dropWhile_cons]
    split at hs
    · exfalso
      have hlen := congrArg List.length hs
      have hle := dropWhile_len_le p (t ++ r)
      simp [List.length_append] at hlen hle
      omega
    · simp_all

theorem ltrim_ltrim (s : List Char) : ltrim (ltrim s) = ltrim s := by
  induction s with
  | nil => rfl
  | cons c cs ih =>
    simp only [ltrim, List.dropWhile_cons]
    split
    · exact ih
    · simp_all [List.dropWhile_cons]

theorem rtrim_rtrim (s : List Char) : rtrim (rtrim s) = rtrim s := by
  induction s with
  | nil => rfl
  | cons c cs ih =>
    simp only [rtrim, List.foldr] at *
    split
    · rfl
    · rename_i h
      simp only [rtrim, List.foldr] at *
      rw [ih]
      split
      · exact absurd (by assumption) h
      · rfl

theorem ltrim_rtrim_ltrim (s : List Char) :
    ltrim (rtrim (ltrim s)) = rtrim (ltrim s) :=
  dropWhile_of_isPre (ltrim_ltrim s) (rtrim_isPre (ltrim s))

/-- `trim` is idempotent. -/
theorem trim_trim (s : List Char) : trim (trim s) = trim s := by
  unfold trim
  rw [ltrim_rtrim_ltrim, rtrim_rtrim]

/-! ### Lemmas about the draw-frame loop -/

theorem drawFrameTimes_pos {c : ℕ} {D : ℚ} (h : (c : ℚ) < D) :
    drawFrameTimes c D = c :: drawFrameTimes (c + frameIntervalMs) D := by
  rw [drawFrameTimes]
  simp [h]

theorem drawFrameTimes_neg {c : ℕ} {D : ℚ} (h : ¬(c : ℚ) < D) :
    drawFrameTimes c D = [] := by
  rw [drawFrameTimes]
  simp [h]

/-- Index characterization of the frame seek times: position `i` of the
list holds `c + 42 * i` exactly when that time is below the duration. -/
theorem drawFrameTimes_getElem (D : ℚ) (c i : ℕ) :
    (drawFrameTimes c D)[i]? =
      if ((c + frameIntervalMs * i : ℕ) : ℚ) < D
      then some (c + frameIntervalMs * i) else none := by
  by_cases h : (c : ℚ) < D
  · rw [drawFrameTimes_pos h]
    cases i with
    | zero => simp [h]
    | succ j =>
      have ih := drawFrameTimes_getElem D (c + frameIntervalMs) j
      have harith : c + frameIntervalMs + frameIntervalMs * j
          = c + frameIntervalMs * (j + 1) := by ring
      simp only [List.getElem?_cons_succ, ih, harith]
  · rw [drawFrameTimes_neg h]
    have hge : ¬ ((c + frameIntervalMs * i : ℕ) : ℚ) < D := by
      intro hlt
      exact h (lt_of_le_of_lt (by exact_mod_cast Nat.le_add_right c _) hlt)
    rw [if_neg hge]
    simp
termination_by ⌈D⌉₊ - c
decreasing_by
  have hc : c < ⌈D⌉₊ := Nat.lt_ceil.mpr h
  simp only [frameIntervalMs]
  omega

/-- The seek times are exactly the multiples of 42 ms below the duration. -/
theorem mem_drawFrameTimes (D : ℚ) (t : ℕ) :
    t ∈ drawFrameTimes 0 D ↔ ∃ k, t = frameIntervalMs * k ∧ (t : ℚ) < D := by
  rw [List.mem_iff_getElem?]
  constructor
  · rintro ⟨i, hi⟩
    rw [drawFrameTimes_getElem] at hi
    split at hi
    · rename_i hlt
      have ht : 0 + frameIntervalMs * i = t := by injection hi
      refine ⟨i, by omega, ?_⟩
      rw [← ht]
      exact hlt
    · cases hi
  · rintro ⟨k, rfl, hlt⟩
    refine ⟨k, ?_⟩
    rw [drawFrameTimes_getElem]
    have h0 : 0 + frameIntervalMs * k = frameIntervalMs * k := Nat.zero_add _
    rw [h0, if_pos hlt]

/-- The frame list is the arithmetic progression with step 42 starting
at 0. -/
theorem drawFrameTimes_arith (D : ℚ) :
    drawFrameTimes 0 D =
      (List.range (drawFrameTimes 0 D).length).map (fun k => frameIntervalMs * k) := by
  apply List.ext_getElem?
  intro i
  rw [List.getElem?_map]
  by_cases hi : i < (drawFrameTimes 0 D).length
  · have h1 := List.getElem?_eq_getElem hi
    have h2 : ((0 + frameIntervalMs * i : ℕ) : ℚ) < D := by
      by_contra hno
      rw [drawFrameTimes_getElem, if_neg hno] at h1
      cases h1
    rw [drawFrameTimes_getElem, if_pos h2, List.getElem?_range hi]
    simp
  · have h2 : ¬ ((0 + frameIntervalMs * i : ℕ) : ℚ) < D := by
      intro hlt
      apply hi
      by_contra hno
      have h3 : (drawFrameTimes 0 D)[i]? = none :=
        List.getElem?_eq_none (Nat.le_of_not_lt hno)
      rw [drawFrameTimes_getElem, if_pos hlt] at h3
      cases h3
    rw [drawFrameTimes_getElem, if_neg h2]
    have h4 : (List.range (drawFrameTimes 0 D).length)[i]? = none :=
      List.getElem?_eq_none (by simpa using Nat.le_of_not_lt hi)
    rw [h4]
    rfl

/-! ### Lemmas about the recording timer -/

/-- Invariant of the recording timer: the displayed time never exceeds
the maximum, and once the tick has stopped the recorder the displayed
time is exactly the maximum. -/
theorem timerState_invariant (n : ℕ) :
    (timerState n).1 ≤ MAX_RECORDING_DURATION ∧
      ((timerState n).2 = true → (timerState n).1 = MAX_RECORDING_DURATION) := by
  induction n with
  | zero =>
    constructor
    · norm_num [timerState, MAX_RECORDING_DURATION]
    · intro h
      simp [timerState] at h
  | succ n ih =>
    simp only [timerState]
    by_cases h : (timerState n).2 = true
    · rw [if_pos h]
      exact ih
    · rw [if_neg h]
      simp only [timerTick]
      split
      · exact ⟨le_refl _, fun _ => rfl⟩
      · rename_i hlt
        refine ⟨le_of_lt (not_le.mp hlt), ?_⟩
        intro hcontra
        simp at hcontra

/-- Closed form of the timer run (with exact rational arithmetic): the
tick that starts from 4.9 s reaches 5 and stops, so ticks 0 to 49 show
`n/10` seconds and from tick 50 on the state is frozen at the maximum. -/
theorem timerState_eq (n : ℕ) :
    timerState n = if n < 50 then ((n : ℚ) / 10, false) else (5, true) := by
  induction n with
  | zero =>
    rw [if_pos (by norm_num)]
    simp [timerState]
  | succ n ih =>
    simp only [timerState, ih]
    by_cases h : n < 50
    · rw [if_pos h]
      dsimp only
      rw [if_neg (by simp)]
      simp only [timerTick, MAX_RECORDING_DURATION]
      by_cases h2 : n + 1 < 50
      · have hle : (n : ℚ) ≤ 48 := by exact_mod_cast (by omega : n ≤ 48)
        rw [if_neg (by push_neg; linarith), if_pos h2]
        have hcast : (n : ℚ) / 10 + 1 / 10 = ((n + 1 : ℕ) : ℚ) / 10 := by
          push_cast
          ring
        rw [hcast]
      · have hn : n = 49 := by omega
        subst hn
        rw [if_pos (by norm_num), if_neg h2]
    · rw [if_neg h]
      dsimp only
      rw [if_pos rfl, if_neg (by omega)]

/-! ### Lemmas about localStorage -/

theorem getItem_removeItem (b : Browser) (k k' : String) :
    getItem (removeItem b k) k' = if k' = k then none else getItem b k' := by
  unfold getItem removeItem
  simp only
  induction b.storageItems with
  | nil => split <;> rfl
  | cons p l ih =>
    by_cases hp : p.1 = k
    · rw [List.filter_cons_of_neg (by simp [hp])]
      rw [ih]
      by_cases hk : k' = k
      · rw [if_pos hk, if_pos hk]
      · rw [if_neg hk, if_neg hk]
        rw [List.find?_cons_of_neg _ (by simp only [beq_iff_eq, hp]; exact fun hc => hk hc.symm)]
    · rw [List.filter_cons_of_pos (by simpa using hp)]
      by_cases hq : p.1 = k'
      · rw [List.find?_cons_of_pos _ (by simpa using hq),
            List.find?_cons_of_pos _ (by simpa using hq)]
        rw [if_neg (fun hc => hp (by rw [hq, hc]))]
      · rw [List.find?_cons_of_neg _ (by simpa using hq),
            List.find?_cons_of_neg _ (by simpa using hq)]
        exact ih

/-! ### A lemma about filtering recorded chunks -/

theorem recordedChunks_eq_filter_ne_nil (dataEvents : List (List ℕ)) :
    recordedChunks dataEvents = dataEvents.filter (fun d => !d.isEmpty) := by
  unfold recordedChunks
  apply List.filter_congr
  intro d _
  cases d <;> simp

/-! ### Lemmas about `sendTranscriptionChunk` -/

theorem sendTranscriptionChunk_endpoint_payload {st : SpeechState} {text : List Char}
    {req : PostRequest} (h : sendTranscriptionChunk st text = some req) :
    req.endpoint = "/api/transcription-chunk-summary" ∧ req.textPayload = text := by
  unfold sendTranscriptionChunk at h
  split at h
  · cases h
  · injection h with h1
    subst h1
    exact ⟨rfl, rfl⟩

theorem sendTranscriptionChunk_eq (st : SpeechState) (text : List Char)
    (hk : st.hasProviderKey = true) (ht : trim text ≠ []) :
    sendTranscriptionChunk st text =
      some (transcriptionChunkSummaryRequest text st.provider
        (if st.previousContext.isEmpty then none else some st.previousContext)) := by
  unfold sendTranscriptionChunk
  rw [if_neg (by simp [hk, List.isEmpty_iff, ht])]

/-! ## Claim theorems -/

/-- Claim C1 counterexample: the speech-to-sign view does not convert the
transcribed speech into a gloss sequence.  On a concrete recording state,
the chunk request it issues goes to the transcription-chunk-summary
endpoint, which differs from the text-to-gloss endpoint that the services
layer would use for a gloss conversion. -/
theorem c1_speech_to_sign_counterexample :
    ((chunkTick (SpeechState.mk "hello there ".toList [] 0 [] true "openai")).2.map
        PostRequest.endpoint) = some "/api/transcription-chunk-summary" ∧
    (textToGlossRequest "hello there".toList "openai").endpoint = "/api/text-to-gloss" ∧
    ("/api/transcription-chunk-summary" : String) ≠ "/api/text-to-gloss" := by
  refine ⟨by decide, rfl, by decide⟩

/-- Claim C1 (amended): every request issued by the speech-to-sign view's
chunking pipeline targets the transcription-chunk-summary endpoint, and the
truthy summary string of a chunk response is what the view presents as its
output (and keeps as context for the next chunk). -/
theorem c1_speech_to_sign_summary_output (st : SpeechState) :
    (∀ req, (chunkTick st).2 = some req →
        req.endpoint = "/api/transcription-chunk-summary") ∧
    (∀ req, (stopRecordingFlush st).2 = some req →
        req.endpoint = "/api/transcription-chunk-summary") ∧
    (∀ (disp : SpeechDisplay) (r : ChunkSummaryResult) (s : List Char),
        r.summary = some s → s ≠ [] →
        (onChunkResult st disp r).2.summaryShown = s ∧
        (onChunkResult st disp r).1.previousContext = s) := by
  refine ⟨?_, ?_, ?_⟩
  · intro req h
    simp only [chunkTick] at h
    split at h
    · split at h
      · exact (sendTranscriptionChunk_endpoint_payload h).1
      · simp at h
    · simp at h
  · intro req h
    simp only [stopRecordingFlush] at h
    split at h
    · exact (sendTranscriptionChunk_endpoint_payload h).1
    · simp at h
  · intro disp r s hs hne
    unfold onChunkResult
    rw [hs]
    simp [hne]

/-- Claim C1 witness: a concrete chunk response summary is displayed as
the view's output. -/
theorem c1_speech_to_sign_summary_output_witness :
    (onChunkResult (SpeechState.mk [] [] 0 [] true "openai") (SpeechDisplay.mk [] [])
        (ChunkSummaryResult.mk (some "A person waves hello".toList))).2.summaryShown
      = "A person waves hello".toList :=
  ((c1_speech_to_sign_summary_output _).2.2 _ _ _ rfl (by decide)).1

/-- Claim C2: the emergency indication is activated exactly when the
translation text, lowercased, contains the substring
`this is an emergency`; a missing translation never activates it, and a
result without the keyword leaves the emergency state untouched. -/
theorem c2_emergency_keyword_detection :
    (∀ t : List Char,
        emergencyDetected (some t) = containsSub (toLowerCase t) emergencyKeyword) ∧
    emergencyDetected none = false ∧
    (∀ (r : SignResult) (st : Bool), emergencyDetected r.translation = false →
        emergencyAfter st r = st) ∧
    (∀ (r : SignResult) (st : Bool), emergencyDetected r.translation = true →
        emergencyAfter st r = true) := by
  refine ⟨?_, rfl, ?_, ?_⟩
  · intro t
    cases t with
    | nil => decide
    | cons c cs => simp [emergencyDetected]
  · intro r st h
    simp [emergencyAfter, h]
  · intro r st h
    simp [emergencyAfter, h]

/-- Claim C2 witness: concrete detection and non-detection cases. -/
theorem c2_emergency_keyword_detection_witness :
    emergencyDetected (some "Help, THIS IS AN EMERGENCY now".toList) = true ∧
    emergencyAfter false (SignResult.mk (some "Help, THIS IS AN EMERGENCY now".toList) none)
      = true ∧
    emergencyDetected (some "hello world".toList) = false ∧
    emergencyAfter true (SignResult.mk (some "hello world".toList) none) = true :=
  ⟨by decide,
   (c2_emergency_keyword_detection).2.2.2 _ false (by decide),
   by decide,
   (c2_emergency_keyword_detection).2.2.1 _ true (by decide)⟩

/-- Claim C3: transcription chunking.  The interval period is 5000 ms and
each firing issues at most one request (the result type is an `Option`);
a request is issued only when the trimmed finalized transcript is
non-empty and differs from the previously sent chunk, and it carries that
transcript; the tick never clears the transcription buffer; stopping the
recording flushes any pending transcription as one final chunk, and
flushes nothing when nothing is pending. -/
theorem c3_transcription_chunking (st : SpeechState) :
    chunkIntervalMs = 5000 ∧
    (∀ req, (chunkTick st).2 = some req →
        trim st.finalTranscript ≠ [] ∧
        trim st.finalTranscript ≠ st.lastChunkSent ∧
        req.textPayload = trim st.finalTranscript) ∧
    ((chunkTick st).1.finalTranscript = st.finalTranscript) ∧
    (st.hasProviderKey = true → trim st.finalTranscript ≠ [] →
        trim st.finalTranscript ≠ st.lastChunkSent →
        (stopRecordingFlush st).2 =
          some (transcriptionChunkSummaryRequest (trim st.finalTranscript) st.provider
            (if st.previousContext.isEmpty then none else some st.previousContext))) ∧
    (trim st.finalTranscript = [] ∨ trim st.finalTranscript = st.lastChunkSent →
        (stopRecordingFlush st).2 = none) := by
  refine ⟨rfl, ?_, ?_, ?_, ?_⟩
  · intro req h
    simp only [chunkTick] at h
    split at h
    · rename_i h1
      split at h
      · exact ⟨h1.1, h1.2, (sendTranscriptionChunk_endpoint_payload h).2⟩
      · simp at h
    · simp at h
  · simp only [chunkTick]
    split
    · split
      · rfl
      · rfl
    · rfl
  · intro hk h1 h2
    simp only [stopRecordingFlush]
    rw [if_pos ⟨h1, h2⟩]
    exact sendTranscriptionChunk_eq st _ hk (by rw [trim_trim]; exact h1)
  · intro hd
    simp only [stopRecordingFlush]
    rw [if_neg]
    rintro ⟨hne, hne2⟩
    rcases hd with hd | hd
    · exact hne hd
    · exact hne2 hd

/-- Claim C3 witness: a concrete pending transcription is flushed on stop. -/
theorem c3_transcription_chunking_witness :
    (stopRecordingFlush (SpeechState.mk "hi ".toList [] 0 [] true "openai")).2 =
      some (transcriptionChunkSummaryRequest (trim "hi ".toList) "openai"
        (if ([] : List Char).isEmpty then none else some [])) :=
  (c3_transcription_chunking _).2.2.2.1 rfl (by decide) (by decide)

/-- Claim C4: `compressVideo` seeks in fixed 42 ms steps from 0 (the frame
list is the 42-step arithmetic progression covering exactly the multiples
of 42 below the duration in ms), draws onto a 1280x720 canvas captured at
24 frames per second, caps the video bitrate at 250000 bits per second,
and resolves with one `video/webm` blob concatenating every non-empty
recorded chunk in arrival order. -/
theorem c4_compress_video_pipeline :
    targetWidth = 1280 ∧ targetHeight = 720 ∧ captureFrameRate = 24 ∧
    compressVideoBitsPerSecond = 250000 ∧ frameIntervalMs = 42 ∧
    (∀ D : ℚ, drawFrameTimes 0 D =
        (List.range (drawFrameTimes 0 D).length).map (fun k => frameIntervalMs * k)) ∧
    (∀ (D : ℚ) (t : ℕ), t ∈ drawFrameTimes 0 D ↔
        ∃ k, t = frameIntervalMs * k ∧ (t : ℚ) < D) ∧
    (∀ dataEvents : List (List ℕ), compressOutputBlob dataEvents =
        JsBlob.mk ((dataEvents.filter (fun d => !d.isEmpty)).flatten) "video/webm") := by
  refine ⟨rfl, rfl, rfl, rfl, rfl, drawFrameTimes_arith, mem_drawFrameTimes, ?_⟩
  intro dataEvents
  unfold compressOutputBlob
  rw [recordedChunks_eq_filter_ne_nil]

/-- Claim C5: a truthy `audio_base64` is base64-decoded into an
`audio/mpeg` blob and played; otherwise a truthy `translation` is spoken
through the browser speech-synthesis API. -/
theorem c5_audio_playback (r : SignResult) :
    (∀ s, r.audio_base64 = some s → s ≠ [] →
        audioAction r = AudioOut.play (atobBytes s) "audio/mpeg") ∧
    (truthyStr r.audio_base64 = false → ∀ t, r.translation = some t → t ≠ [] →
        audioAction r = AudioOut.speak t) := by
  constructor
  · intro s hs hne
    unfold audioAction
    rw [hs]
    simp [hne]
  · intro hf t ht hne
    unfold audioAction
    cases hab : r.audio_base64 with
    | none =>
      show audioFallback r = AudioOut.speak t
      unfold audioFallback
      rw [ht]
      simp [hne]
    | some s =>
      rw [hab] at hf
      simp only [truthyStr, Bool.not_eq_false', List.isEmpty_iff] at hf
      subst hf
      show audioFallback r = AudioOut.speak t
      unfold audioFallback
      rw [ht]
      simp [hne]

/-- Claim C5 witness: a concrete audio payload is played, and a concrete
translation without audio is spoken. -/
theorem c5_audio_playback_witness :
    ("QQ==".toList ≠ [] ∧
      audioAction (SignResult.mk none (some "QQ==".toList)) =
        AudioOut.play (atobBytes "QQ==".toList) "audio/mpeg") ∧
    (truthyStr (none : Option (List Char)) = false ∧ "hi".toList ≠ [] ∧
      audioAction (SignResult.mk (some "hi".toList) none) = AudioOut.speak "hi".toList) :=
  ⟨⟨by decide,
    (c5_audio_playback (SignResult.mk none (some "QQ==".toList))).1 _ rfl (by decide)⟩,
   ⟨rfl, by decide,
    (c5_audio_playback (SignResult.mk (some "hi".toList) none)).2 rfl _ rfl (by decide)⟩⟩

/-- Claim C6: a 401 response makes the shared API client remove the
stored `aria_token` and `aria_user`, redirect to `/login`, and propagate
the rejection; any other status leaves the browser state unchanged while
still propagating the rejection. -/
theorem c6_unauthorized_response_interceptor (b : Browser) (e : ApiError) :
    (e.status = some 401 →
        getItem (onResponseError b e).1 "aria_token" = none ∧
        getItem (onResponseError b e).1 "aria_user" = none ∧
        (onResponseError b e).1.href = "/login" ∧
        (onResponseError b e).2 = Except.error e) ∧
    (e.status ≠ some 401 →
        (onResponseError b e).1 = b ∧ (onResponseError b e).2 = Except.error e) := by
  constructor
  · intro h
    unfold onResponseError
    rw [if_pos h]
    refine ⟨?_, ?_, rfl, rfl⟩
    · have h1 := getItem_removeItem (removeItem b "aria_token") "aria_user" "aria_token"
      rw [if_neg (by decide)] at h1
      have h2 := getItem_removeItem b "aria_token" "aria_token"
      rw [if_pos rfl] at h2
      exact h1.trans h2
    · have h3 := getItem_removeItem (removeItem b "aria_token") "aria_user" "aria_user"
      rw [if_pos rfl] at h3
      exact h3
  · intro h
    unfold onResponseError
    rw [if_neg h]
    exact ⟨rfl, rfl⟩

/-- Claim C6 witness: a concrete 401 error clears a concrete storage. -/
theorem c6_unauthorized_response_interceptor_witness :
    getItem (onResponseError
        (Browser.mk [("aria_token", "t"), ("aria_user", "u")] "/dashboard")
        (ApiError.mk (some 401))).1 "aria_token" = none ∧
    getItem (onResponseError
        (Browser.mk [("aria_token", "t"), ("aria_user", "u")] "/dashboard")
        (ApiError.mk (some 401))).1 "aria_user" = none ∧
    (onResponseError
        (Browser.mk [("aria_token", "t"), ("aria_user", "u")] "/dashboard")
        (ApiError.mk (some 401))).1.href = "/login" :=
  ⟨((c6_unauthorized_response_interceptor _ _).1 rfl).1,
   ((c6_unauthorized_response_interceptor _ _).1 rfl).2.1,
   ((c6_unauthorized_response_interceptor _ _).1 rfl).2.2.1⟩

/-- Claim C7: a non-empty `output_gloss` list renders one badge per gloss
token, preserving the list order (the badge at every index is the token at
that index); a null or absent `output_gloss` renders no gloss section. -/
theorem c7_history_gloss_badges :
    (∀ words : List String, words ≠ [] →
        renderGlossBadges (some words) = some (words.map Badge.mk)) ∧
    (∀ (words : List String) (i : ℕ),
        (words.map Badge.mk)[i]? = (words[i]?).map Badge.mk) ∧
    renderGlossBadges none = none := by
  refine ⟨fun words _ => rfl, ?_, rfl⟩
  intro words i
  exact List.getElem?_map _ _ _

/-- Claim C7 witness: a concrete two-token gloss renders two badges in
order. -/
theorem c7_history_gloss_badges_witness :
    (["HELLO", "WORLD"] : List String) ≠ [] ∧
    renderGlossBadges (some ["HELLO", "WORLD"]) =
      some [Badge.mk "HELLO", Badge.mk "WORLD"] :=
  ⟨by decide, c7_history_gloss_badges.1 _ (by decide)⟩

/-- Claim C8: without an active key for the selected provider, or for
video input with the OpenAI provider, `sendToAPI` only sets the error
message and issues no backend call, leaving translation, audio URL, and
loading state unchanged. -/
theorem c8_send_to_api_guards (keys : List APIKey) (provider mediaType : String)
    (st : SignViewState) :
    (hasAPIKey keys provider = false →
        sendToAPIGuard keys provider mediaType st =
          ({ st with error := noKeyMessage provider }, none)) ∧
    (hasAPIKey keys provider = true → mediaType = "video" → provider = "openai" →
        sendToAPIGuard keys provider mediaType st =
          ({ st with error := videoRequiresGeminiMessage }, none)) := by
  constructor
  · intro h
    unfold sendToAPIGuard
    rw [if_pos (by simp [h])]
  · intro h hv hp
    unfold sendToAPIGuard
    rw [if_neg (by simp [h]), if_pos (by simp [hv, hp])]

/-- Claim C8 witness: both guards fire on concrete inputs. -/
theorem c8_send_to_api_guards_witness :
    (hasAPIKey [] "openai" = false ∧
      sendToAPIGuard [] "openai" "video" (SignViewState.mk "t".toList false [] "u".toList) =
        ({ SignViewState.mk "t".toList false [] "u".toList with
            error := noKeyMessage "openai" }, none)) ∧
    (hasAPIKey [APIKey.mk "openai" true] "openai" = true ∧
      sendToAPIGuard [APIKey.mk "openai" true] "openai" "video"
          (SignViewState.mk "t".toList false [] "u".toList) =
        ({ SignViewState.mk "t".toList false [] "u".toList with
            error := videoRequiresGeminiMessage }, none)) :=
  ⟨⟨rfl, (c8_send_to_api_guards [] "openai" "video" _).1 rfl⟩,
   ⟨rfl, (c8_send_to_api_guards [APIKey.mk "openai" true] "openai" "video" _).2 rfl rfl rfl⟩⟩

/-- Claim C9: the displayed recording time never exceeds the 5-second
maximum; a tick that reaches the maximum stops the recorder and clamps
the displayed value to exactly 5, and a tick below the maximum just adds
0.1 seconds. -/
theorem c9_recording_timer_clamped :
    MAX_RECORDING_DURATION = 5 ∧
    (∀ n, (timerState n).1 ≤ MAX_RECORDING_DURATION) ∧
    (∀ n, (timerState n).2 = true → (timerState n).1 = MAX_RECORDING_DURATION) ∧
    (∀ prev : ℚ, prev + 1 / 10 ≥ MAX_RECORDING_DURATION →
        timerTick prev = (MAX_RECORDING_DURATION, true)) ∧
    (∀ prev : ℚ, prev + 1 / 10 < MAX_RECORDING_DURATION →
        timerTick prev = (prev + 1 / 10, false)) := by
  refine ⟨rfl, fun n => (timerState_invariant n).1, fun n => (timerState_invariant n).2,
    ?_, ?_⟩
  · intro prev h
    unfold timerTick
    rw [if_pos h]
  · intro prev h
    unfold timerTick
    rw [if_neg (not_le.mpr h)]

/-- Claim C9 witness: the tick at 4.9 s stops and clamps, and after 50
ticks the timer has stopped at exactly the maximum. -/
theorem c9_recording_timer_clamped_witness :
    ((49 : ℚ) / 10 + 1 / 10 ≥ MAX_RECORDING_DURATION ∧
      timerTick ((49 : ℚ) / 10) = (MAX_RECORDING_DURATION, true)) ∧
    ((timerState 50).2 = true ∧ (timerState 50).1 = MAX_RECORDING_DURATION) :=
  ⟨⟨by norm_num [MAX_RECORDING_DURATION],
    c9_recording_timer_clamped.2.2.2.1 _ (by norm_num [MAX_RECORDING_DURATION])⟩,
   ⟨by rw [timerState_eq]; norm_num,
    c9_recording_timer_clamped.2.2.1 50 (by rw [timerState_eq]; norm_num)⟩⟩

/-- Claim C10: with a null `maxDuration` the compression loop processes
the full source duration, and with a positive `maxDuration` it processes
exactly the minimum of the source duration and `maxDuration`: the frames
drawn are the 42 ms multiples below the effective duration in ms. -/
theorem c10_max_duration (vd m : ℚ) (hm : 0 < m) :
    (∀ t : ℕ, t ∈ compressFrames vd none ↔
        ∃ k, t = frameIntervalMs * k ∧ (t : ℚ) < vd * 1000) ∧
    (∀ t : ℕ, t ∈ compressFrames vd (some m) ↔
        ∃ k, t = frameIntervalMs * k ∧ (t : ℚ) < min vd m * 1000) := by
  constructor
  · intro t
    unfold compressFrames effectiveDuration
    exact mem_drawFrameTimes _ t
  · intro t
    have h1 : effectiveDuration vd (some m) = min vd m := by
      show (if m ≠ 0 then min vd m else vd) = min vd m
      rw [if_pos (ne_of_gt hm)]
    unfold compressFrames
    rw [h1]
    exact mem_drawFrameTimes _ t

/-- Claim C10 witness: with source duration 1 s and `maxDuration` 2 s the
effective duration is 1 s, and the 84 ms frame is drawn. -/
theorem c10_max_duration_witness :
    (0 : ℚ) < 2 ∧ 84 ∈ compressFrames 1 (some 2) :=
  ⟨by norm_num,
   ((c10_max_duration 1 2 (by norm_num)).2 84).mpr
     ⟨2, by norm_num [frameIntervalMs], by norm_num [min_def]⟩⟩

end ARIA
